import Mathlib

/-!
Verification of the recastra recording core.

This file gives a shallow embedding of the session / recording core of the
repository: the `RecordingManager` state machine (`src/core/RecordingManager.ts`),
the recorder utilities (`stopRecorderWithTimeout`, `setupRecordingHeartbeat` in
the recorder utilities module), the stream-continuity update
(`MediaStreamManager.updateStream`), and the MIME-type configuration
(`RecordingManager.setMimeType`).

Event-driven JavaScript is embedded as explicit state machines: the stop
coordinator is a fold of timestamped events over a settlement state (a JS
promise settles at most once; `settleSR` embeds that), and the manager is a
fold of lifecycle events over the manager state.
-/

namespace Recastra

/-- Recorder state as exposed by the platform recorder handle
(`MediaRecorder.state`). -/
inductive RState where
  | recording
  | paused
  | inactive
deriving DecidableEq, Repr

/-- Binary chunk / container: a JS `Blob` is a byte sequence plus a declared
content type. -/
structure Blob where
  bytes : List Nat
  type : String
deriving DecidableEq, Repr

/-- Blob size in bytes (`Blob.size`). -/
def Blob.size (b : Blob) : Nat := b.bytes.length

/-- Embedding of `new Blob(chunks, \x7b type: mimeType \x7d)`: pure byte
concatenation of the parts, in order, plus the declared content type. -/
def mkBlob (chunks : List Blob) (mimeType : String) : Blob :=
  ⟨(chunks.map Blob.bytes).flatten, mimeType⟩

/-- Timing constant from `src/constants.ts`. -/
def DATA_TIMESLICE_MS : Nat := 100

/-- Timing constant from `src/constants.ts`. -/
def HEARTBEAT_INTERVAL_MS : Nat := 2000

/-- Timing constant from `src/constants.ts`. -/
def HEARTBEAT_STALL_MS : Nat := 1000

/-- Timing constant from `src/constants.ts`. -/
def RECORDER_STOP_TIMEOUT_MS : Nat := 3000

/-- Timing constant from `src/constants.ts`. -/
def ERROR_RECOVERY_DELAY_MS : Nat := 500

/-- Error message from `src/errors.ts`. -/
def ERR_STREAM_NOT_PROVIDED : String := "Stream not provided. Provide a valid MediaStream."

/-- Error message from `src/errors.ts`. -/
def ERR_NOT_RECORDING : String := "Recording not in progress"

/-- Error message from `src/errors.ts`. -/
def ERR_NO_DATA : String := "No data collected during recording"

/-- Error message rejected by the `onerror` handler inside
`stopRecorderWithTimeout`. -/
def ERR_STOP_ERROR : String := "Error stopping recording"

/-- Marker for the rejection in the catch branch of `stopRecorderWithTimeout`
(the code rejects the thrown error object itself; we model it by a distinct
message). -/
def ERR_STOP_EXCEPTION : String := "Exception during stop"

/-! ## Stop coordinator (`stopRecorderWithTimeout`, recorder utilities)

The function installs an `onstop` handler, an `onerror` handler and a
`setTimeout(timeoutMs)` timer, then synchronously calls `mediaRecorder.stop()`.
Whichever handler runs first settles the promise; `resolve`/`reject` after the
first settlement are no-ops. The `ondataavailable` handler installed by
`RecordingManager.start` keeps pushing into the same `chunks` array while the
promise is pending. -/

/-- Settlement branch of `stopRecorderWithTimeout`: the natural recorder
`onstop`, the stall timeout, the recorder `onerror`, or the synchronous catch
around `mediaRecorder.stop()`. -/
inductive Branch where
  | bOnstop
  | bTimeout
  | bOnerror
  | bCatch
deriving DecidableEq, Repr

/-- Settlement of the stop promise: resolved with a container blob or rejected
with an error message. -/
inductive StopOutcome where
  | resolved (b : Blob)
  | rejected (msg : String)
deriving DecidableEq, Repr

/-- External events that can reach the stop coordinator while its promise is
pending: an `ondataavailable` delivery, the recorder `onstop`, or the
recorder `onerror` event. -/
inductive ExtEv where
  | xData (b : Blob)
  | xOnstop
  | xOnerror
deriving DecidableEq, Repr

/-- Internal event kind: external events plus the firing of the
`setTimeout(timeoutMs)` timer installed by the executor. -/
inductive StopEvKind where
  | kData (b : Blob)
  | kOnstop
  | kOnerror
  | kTimeout
deriving DecidableEq, Repr

/-- Conversion of an external event to the internal event kind. -/
def ExtEv.toKind : ExtEv → StopEvKind
  | .xData b => .kData b
  | .xOnstop => .kOnstop
  | .xOnerror => .kOnerror

/-- State of a running `stopRecorderWithTimeout` call: the shared `chunks`
array, the recorder handle state, the promise settlement (`result`, recorded
once), which branch settled it, the snapshot of `chunks` at that instant, the
settlement time, and whether `clearTimeout` has run. -/
structure SRState where
  chunks : List Blob
  recState : RState
  result : Option StopOutcome
  settledBy : Option Branch
  settledChunks : Option (List Blob)
  settledAt : Option Nat
  cleared : Bool
deriving DecidableEq, Repr

/-- Finalization shared by the `onstop` and timeout branches: if the buffer is
non-empty, resolve with `new Blob(chunks, \x7b type: mimeType \x7d)`; otherwise
reject with `ERR_NO_DATA`. -/
def finalizeChunks (chunks : List Blob) (mimeType : String) : StopOutcome :=
  if chunks.isEmpty then .rejected ERR_NO_DATA else .resolved (mkBlob chunks mimeType)

/-- Promise settlement: `resolve` / `reject` record an outcome only if the
promise is still pending, together with the branch, the current buffer snapshot
and the time. -/
def settleSR (s : SRState) (t : Nat) (br : Branch) (o : StopOutcome) : SRState :=
  if s.result.isSome then s
  else { s with result := some o, settledBy := some br,
                settledChunks := some s.chunks, settledAt := some t }

/-- One event step of the pending stop promise, following the handlers of
`stopRecorderWithTimeout` (and the `ondataavailable` handler of
`RecordingManager.start`, which appends chunks of positive size to the shared
array). `onstop` and `onerror` first run `clearTimeout`; the timer body runs
only if it was not cleared. -/
def srStep (mimeType : String) (s : SRState) (ev : Nat × StopEvKind) : SRState :=
  match ev.2 with
  | .kData b =>
      if 0 < b.size then { s with chunks := s.chunks ++ [b] } else s
  | .kOnstop =>
      let s1 := { s with cleared := true, recState := RState.inactive }
      settleSR s1 ev.1 .bOnstop (finalizeChunks s1.chunks mimeType)
  | .kOnerror =>
      let s1 := { s with cleared := true }
      settleSR s1 ev.1 .bOnerror (.rejected ERR_STOP_ERROR)
  | .kTimeout =>
      if s.cleared then s
      else settleSR s ev.1 .bTimeout (finalizeChunks s.chunks mimeType)

/-- Timeline of a stop call: the external events that occur strictly before
`timeoutMs`, then the timer firing at `timeoutMs`, then the remaining external
events. -/
def mergedEvents (timeoutMs : Nat) (events : List (Nat × StopEvKind)) :
    List (Nat × StopEvKind) :=
  events.filter (fun e => e.1 < timeoutMs) ++ [(timeoutMs, StopEvKind.kTimeout)] ++
    events.filter (fun e => ¬ e.1 < timeoutMs)

/-- State right after the synchronous executor body of
`stopRecorderWithTimeout`: the final-flush request was issued, the timer and
handlers are installed, and `mediaRecorder.stop()` was called — rejecting via
the catch if it throws, making the recorder inactive otherwise. -/
def srStart (chunks0 : List Blob) (rst : RState) (stopThrows : Bool) : SRState :=
  let s0 : SRState := ⟨chunks0, rst, none, none, none, none, false⟩
  if stopThrows then settleSR s0 0 .bCatch (.rejected ERR_STOP_EXCEPTION)
  else { s0 with recState := RState.inactive }

/-- Embedding of `stopRecorderWithTimeout(mediaRecorder, chunks, mimeType,
timeoutMs)`: the synchronous executor body followed by the timestamped events
that drive the pending promise. -/
def runStopRecorder (timeoutMs : Nat) (chunks0 : List Blob) (rst : RState)
    (mimeType : String) (stopThrows : Bool) (events : List (Nat × ExtEv)) : SRState :=
  (mergedEvents timeoutMs (events.map (fun e => (e.1, e.2.toKind)))).foldl
    (srStep mimeType) (srStart chunks0 rst stopThrows)

/-! ## RecordingManager state machine (`src/core/RecordingManager.ts`) -/

/-- Capture source: a `MediaStream`, identified by `id`, aggregating audio and
video tracks (identified by numeric ids). -/
structure MStream where
  id : Nat
  audioTracks : List Nat
  videoTracks : List Nat
deriving DecidableEq, Repr

/-- Recorder handle held by the manager: its platform state and the stream it
was constructed over (`mediaRecorder.stream`). -/
structure MRecorder where
  rstate : RState
  stream : MStream
deriving DecidableEq, Repr

/-- State of a `RecordingManager`: the optional recorder handle, the chunk
buffer, the configured MIME type, whether the heartbeat interval is live, and
the recovery restarts scheduled by `setTimeout` in the `onerror` handler
(delay, stream reference), oldest first. -/
structure MgrState where
  recorder : Option MRecorder
  chunks : List Blob
  mimeType : String
  heartbeatActive : Bool
  pendingRestarts : List (Nat × MStream)
deriving DecidableEq, Repr

/-- Initial manager state: no recorder, empty buffer, default MIME type. -/
def mgrInit : MgrState := ⟨none, [], "video/webm", false, []⟩

/-- Errors `RecordingManager.start` can throw: `validateStream` rejecting a
missing stream, or the catch-all wrapper around recorder construction. -/
inductive StartErr where
  | noStream
  | createFailed (msg : String)
deriving DecidableEq, Repr

/-- Message carried by a start error, as thrown by the code. -/
def StartErr.toMessage : StartErr → String
  | .noStream => ERR_STREAM_NOT_PROVIDED
  | .createFailed m => "Failed to start recording: " ++ m

/-- Embedding of `RecordingManager.start(stream)`: `validateStream` throws
`ERR_STREAM_NOT_PROVIDED` when no stream is provided (it performs no check on
the number of tracks); then `this.chunks = []`; then the recorder is
constructed and started (if construction or start throws — `createErr` — the
wrapper rethrows `Failed to start recording: ...`, with the buffer already
reset). On success a fresh recorder over `stream` is recording and the
heartbeat is live. -/
def startMgr (s : MgrState) (streamOpt : Option MStream) (createErr : Option String) :
    MgrState × Option StartErr :=
  match streamOpt with
  | none => (s, some .noStream)
  | some stream =>
      let s1 := { s with chunks := [] }
      match createErr with
      | some msg => (s1, some (.createFailed msg))
      | none =>
          ({ s1 with recorder := some ⟨RState.recording, stream⟩,
                     heartbeatActive := true }, none)

/-- Embedding of the `onerror` handler installed by `RecordingManager.start`:
it clears the heartbeat interval; if the buffer is non-empty it captures
`this.mediaRecorder?.stream`, force-stops the recorder when it is not inactive
(swallowing a throwing `stop()`, `stopThrows`), and schedules exactly one
recovery restart of that stream after `ERROR_RECOVERY_DELAY_MS`; if the buffer
is empty it does nothing further. The second component is what the handler
propagates to the caller: the handler is a void event callback whose body is
wrapped in try/catch, so nothing is ever propagated. -/
def onErrorHandler (s : MgrState) (stopThrows : Bool) : MgrState × Option String :=
  let s1 := { s with heartbeatActive := false }
  if s.chunks.isEmpty then (s1, none)
  else
    match s.recorder with
    | none => (s1, none)
    | some r =>
        let s2 := if r.rstate ≠ RState.inactive ∧ ¬ stopThrows
                  then { s1 with recorder := some ⟨RState.inactive, r.stream⟩ }
                  else s1
        ({ s2 with pendingRestarts :=
             s2.pendingRestarts ++ [(ERROR_RECOVERY_DELAY_MS, r.stream)] }, none)

/-- Lifecycle events driving a `RecordingManager`: a successful `start` call, a
chunk delivery, a recorder error (with whether the force-stop throws),
`pause`/`resume` calls, the synchronous part of a `stop` call, the recorder
`onstop`, and the firing of the oldest scheduled recovery restart. -/
inductive MgrEv where
  | evStart (stream : MStream)
  | evData (b : Blob)
  | evError (stopThrows : Bool)
  | evPause
  | evResume
  | evStopCall
  | evOnstop
  | evRestartFire
deriving DecidableEq, Repr

/-- One step of the `RecordingManager` machine. `evData` is the
`ondataavailable` handler (append when `event.data.size > 0`); `evPause` /
`evResume` follow the guarded `pause()` / `resume()`; `evStopCall` is the
synchronous executor of `stopRecorderWithTimeout` invoked by `stop()` (which
calls `mediaRecorder.stop()`); `evOnstop` is the `onstop` handler installed by
`start` (clears the heartbeat); `evRestartFire` runs the oldest pending
recovery `setTimeout`, which calls `this.start(currentStream)`. -/
def mgrStep (s : MgrState) (e : MgrEv) : MgrState :=
  match e with
  | .evStart stream => (startMgr s (some stream) none).1
  | .evData b => if 0 < b.size then { s with chunks := s.chunks ++ [b] } else s
  | .evError st => (onErrorHandler s st).1
  | .evPause =>
      match s.recorder with
      | some r => if r.rstate = RState.recording
                  then { s with recorder := some ⟨RState.paused, r.stream⟩ } else s
      | none => s
  | .evResume =>
      match s.recorder with
      | some r => if r.rstate = RState.paused
                  then { s with recorder := some ⟨RState.recording, r.stream⟩ } else s
      | none => s
  | .evStopCall =>
      match s.recorder with
      | some r => if r.rstate ≠ RState.inactive
                  then { s with recorder := some ⟨RState.inactive, r.stream⟩ } else s
      | none => s
  | .evOnstop => { s with heartbeatActive := false }
  | .evRestartFire =>
      match s.pendingRestarts with
      | [] => s
      | (_, stream) :: rest =>
          (startMgr { s with pendingRestarts := rest } (some stream) none).1

/-- Run of the manager machine from the initial state. -/
def runMgr (evs : List MgrEv) : MgrState := evs.foldl mgrStep mgrInit

/-- Embedding of `RecordingManager.stop()`: reject `ERR_NOT_RECORDING` when no
recorder exists or it is inactive, otherwise delegate to
`stopRecorderWithTimeout` over the manager buffer and MIME type. -/
def mgrStop (s : MgrState) (timeoutMs : Nat) (stopThrows : Bool)
    (events : List (Nat × ExtEv)) : Except String SRState :=
  match s.recorder with
  | none => .error ERR_NOT_RECORDING
  | some r =>
      if r.rstate = RState.inactive then .error ERR_NOT_RECORDING
      else .ok (runStopRecorder timeoutMs s.chunks r.rstate s.mimeType stopThrows events)

/-! ## Heartbeat (`setupRecordingHeartbeat`, recorder utilities) -/

/-- One tick of the heartbeat interval: if more than `HEARTBEAT_STALL_MS` has
elapsed since the last data and the recorder exists and is recording, invoke
`mediaRecorder.requestData()` inside try/catch. Returns whether the probe was
invoked and what escapes the tick (the catch swallows a throwing probe, so
nothing ever does). -/
def heartbeatTick (now lastData : Nat) (recorder : Option RState)
    (_probeThrows : Bool) : Bool × Option String :=
  if (now : Int) - (lastData : Int) > (HEARTBEAT_STALL_MS : Int) then
    match recorder with
    | some RState.recording => (true, none)
    | _ => (false, none)
  else (false, none)

/-! ## MIME type configuration (`RecordingManager.setMimeType`) -/

/-- Default MIME type of a fresh `RecordingManager`. -/
def DEFAULT_MIME : String := "video/webm"

/-- Embedding of `setMimeType(type)` over the platform predicate
`MediaRecorder.isTypeSupported`: adopt the type when supported, otherwise warn
and keep the current one. It never throws. -/
def setMimeType (supported : String → Bool) (cur : String) (t : String) : String :=
  if supported t then t else cur

/-- Configured MIME type after a sequence of `setMimeType` calls starting from
the default. -/
def applyMimeTypes (supported : String → Bool) (ts : List String) : String :=
  ts.foldl (setMimeType supported) DEFAULT_MIME

/-- MIME type configured by the `RecordingManager` constructor: an optional
`options.mimeType` goes through `setMimeType`, and `audioOnly` then applies
`setMimeType "audio/webm"`. -/
def mgrConstructorMime (supported : String → Bool) (optMime : Option String)
    (audioOnly : Bool) : String :=
  let m1 := match optMime with
    | some t => setMimeType supported DEFAULT_MIME t
    | none => DEFAULT_MIME
  if audioOnly then setMimeType supported m1 "audio/webm" else m1

/-! ## Stream continuity (`MediaStreamManager.updateStream`) -/

/-- Constraint shape passed to `updateStream` / `getUserMedia`: whether the
audio and video members are truthy. -/
structure Constraints where
  audio : Bool
  video : Bool
deriving DecidableEq, Repr

/-- State of a `MediaStreamManager`. -/
structure MSMState where
  stream : Option MStream
  audioOnly : Bool
deriving DecidableEq, Repr

/-- Constraint kinds of one `navigator.mediaDevices.getUserMedia` call. -/
def prepareGUM (c : Constraints) (audioOnly : Bool) : Constraints :=
  if audioOnly then ⟨true, false⟩ else c

/-- Embedding of `MediaStreamManager.updateStream(constraints, maintainVideo)`.
Environment parameters: `videoDeviceChanged` abstracts the device-id comparison
of the video branch, `envAudio` / `envVideo` are the track ids of an acquired
replacement stream, and `freshStream` is the stream returned by a full
`initStream` replacement. Returns the new state, the list of `getUserMedia`
calls made (in order), and the ids of the tracks that were stopped. -/
def updateStream (s : MSMState) (c : Constraints) (maintainVideo : Bool)
    (videoDeviceChanged : Bool) (envAudio envVideo : List Nat)
    (freshStream : MStream) : MSMState × List Constraints × List Nat :=
  match s.stream with
  | none =>
      ({ s with stream := some freshStream }, [prepareGUM c s.audioOnly], [])
  | some st =>
      if maintainVideo then
        let vts := st.videoTracks
        let audioHit := c.audio ∧ ¬ s.audioOnly
        let st1 := if audioHit then { st with audioTracks := envAudio } else st
        let calls1 : List Constraints := if audioHit then [⟨true, false⟩] else []
        let stopped1 : List Nat := if audioHit then st.audioTracks else []
        let videoHit := (c.video ∧ ¬ s.audioOnly) ∧ (vts.isEmpty ∨ videoDeviceChanged)
        let st2 := if videoHit then { st1 with videoTracks := envVideo } else st1
        let calls2 : List Constraints := if videoHit then [⟨false, true⟩] else []
        let stopped2 : List Nat := if videoHit then st1.videoTracks else []
        ({ s with stream := some st2 }, calls1 ++ calls2, stopped1 ++ stopped2)
      else
        ({ s with stream := some freshStream }, [prepareGUM c s.audioOnly],
          st.audioTracks ++ st.videoTracks)

/-! ## Invariant of the stop coordinator and concrete example data -/

/-- Invariant of a pending/settled stop promise: the timer is cleared only by a
handler that settles; the settlement record fields are populated together; a
resolution is always the concatenation of the non-empty buffer snapshotted at
settlement, produced by the `onstop` or timeout branch; a finalization over the
empty snapshot is exactly the `ERR_NO_DATA` rejection; and while pending (or
when `ERR_NO_DATA` is produced) the recorder has already been stopped. -/
def SRInv (m : String) (s : SRState) : Prop :=
  (s.cleared = true → s.result.isSome) ∧
  (s.result.isSome ↔ s.settledBy.isSome) ∧
  (s.result.isSome ↔ s.settledChunks.isSome) ∧
  (s.result.isSome ↔ s.settledAt.isSome) ∧
  (∀ b, s.result = some (StopOutcome.resolved b) →
    ∃ c, s.settledChunks = some c ∧ c ≠ [] ∧ b = mkBlob c m ∧
      (s.settledBy = some Branch.bOnstop ∨ s.settledBy = some Branch.bTimeout)) ∧
  ((s.settledBy = some Branch.bOnstop ∨ s.settledBy = some Branch.bTimeout) →
    ∀ c, s.settledChunks = some c → s.result = some (finalizeChunks c m)) ∧
  (s.result = none → s.recState = RState.inactive) ∧
  (s.result = some (StopOutcome.rejected ERR_NO_DATA) →
    s.settledChunks = some [] ∧ s.recState = RState.inactive ∧
      (s.settledBy = some Branch.bOnstop ∨ s.settledBy = some Branch.bTimeout))

/-- Example stream with one audio and one video track. -/
def streamA : MStream := ⟨1, [10], [20]⟩

/-- Example stream with no tracks at all. -/
def emptyStream : MStream := ⟨7, [], []⟩

/-- Example non-empty chunk. -/
def blobA : Blob := ⟨[1, 2, 3], "video/webm"⟩

/-- Example non-empty chunk. -/
def blobB : Blob := ⟨[4, 5], "video/webm"⟩

/-- Five example chunks, of sizes 1,2,3,2,1. -/
def fiveChunks : List Blob :=
  [⟨[1], ""⟩, ⟨[2, 3], ""⟩, ⟨[4, 5, 6], ""⟩, ⟨[7, 8], ""⟩, ⟨[9], ""⟩]

/-- Manager state observing a recorder error with an empty chunk buffer. -/
def mgrEmptyErr : MgrState := ⟨some ⟨RState.recording, streamA⟩, [], "video/webm", true, []⟩

/-- Audio-only stream manager holding a live audio-only stream. -/
def msmAudioOnly : MSMState := ⟨some ⟨2, [30], []⟩, true⟩

/-! ## Helper lemmas -/

lemma settleSR_of_some (s : SRState) (t : Nat) (br : Branch) (o : StopOutcome)
    (h : s.result.isSome) : settleSR s t br o = s := by
  simp [settleSR, h]

lemma settleSR_of_none (s : SRState) (t : Nat) (br : Branch) (o : StopOutcome)
    (h : s.result = none) :
    settleSR s t br o =
      { s with result := some o, settledBy := some br,
               settledChunks := some s.chunks, settledAt := some t } := by
  simp [settleSR, h]

lemma srStep_frozen (m : String) (s : SRState) (ev : Nat × StopEvKind)
    (h : s.result.isSome) :
    (srStep m s ev).result = s.result ∧ (srStep m s ev).settledBy = s.settledBy ∧
    (srStep m s ev).settledChunks = s.settledChunks ∧
    (srStep m s ev).settledAt = s.settledAt := by
  obtain ⟨t, k⟩ := ev
  cases k <;>
    simp only [srStep] <;>
    first
    | (split <;> simp)
    | (rw [settleSR_of_some _ _ _ _ (by simpa using h)]; simp)

lemma srFold_frozen (m : String) :
    ∀ (L : List (Nat × StopEvKind)) (s : SRState), s.result.isSome →
      ((L.foldl (srStep m) s).result = s.result ∧
       (L.foldl (srStep m) s).settledBy = s.settledBy ∧
       (L.foldl (srStep m) s).settledChunks = s.settledChunks ∧
       (L.foldl (srStep m) s).settledAt = s.settledAt) := by
  intro L
  induction L with
  | nil => intro s _; simp
  | cons e L ih =>
      intro s hs
      have hstep := srStep_frozen m s e hs
      have hs' : (srStep m s e).result.isSome := by rw [hstep.1]; exact hs
      have := ih (srStep m s e) hs'
      simp only [List.foldl_cons]
      exact ⟨by rw [this.1, hstep.1], by rw [this.2.1, hstep.2.1],
             by rw [this.2.2.1, hstep.2.2.1], by rw [this.2.2.2, hstep.2.2.2]⟩

lemma err_stop_ne_no_data : ERR_STOP_ERROR ≠ ERR_NO_DATA := by decide

lemma err_exc_ne_no_data : ERR_STOP_EXCEPTION ≠ ERR_NO_DATA := by decide

lemma srStep_inv (m : String) (s : SRState) (ev : Nat × StopEvKind)
    (h : SRInv m s) : SRInv m (srStep m s ev) := by
  obtain ⟨h1, h2, h3, h4, h5, h6, h7, h8⟩ := h
  obtain ⟨t, k⟩ := ev
  cases k with
  | kData b =>
      by_cases hb : 0 < b.size
      · simp only [srStep, if_pos hb]
        exact ⟨h1, h2, h3, h4, h5, h6, h7, h8⟩
      · simp only [srStep, if_neg hb]
        exact ⟨h1, h2, h3, h4, h5, h6, h7, h8⟩
  | kOnstop =>
      rcases hres : s.result with _ | o
      · simp only [srStep]
        rw [settleSR_of_none _ _ _ _ (by simpa using hres)]
        by_cases hc : s.chunks = []
        · refine ⟨fun _ => by simp, by simp, by simp, by simp, ?_, ?_, ?_, ?_⟩
          · intro b hb
            simp [finalizeChunks, hc] at hb
          · intro _ c hc2
            simp at hc2
            subst hc2
            rfl
          · intro hn; simp at hn
          · intro _
            simp [hc]
        · refine ⟨fun _ => by simp, by simp, by simp, by simp, ?_, ?_, ?_, ?_⟩
          · intro b hb
            refine ⟨s.chunks, by simp, hc, ?_, by simp⟩
            simp [finalizeChunks, hc] at hb
            exact hb.symm
          · intro _ c hc2
            simp at hc2
            subst hc2
            rfl
          · intro hn; simp at hn
          · intro hnd
            simp [finalizeChunks, hc] at hnd
      · simp only [srStep]
        rw [settleSR_of_some _ _ _ _ (by simp [hres])]
        refine ⟨fun _ => by simp [hres], h2, h3, h4, h5, h6, ?_, ?_⟩
        · intro hn; simp [hres] at hn
        · intro hnd
          exact ⟨(h8 hnd).1, rfl, (h8 hnd).2.2⟩
  | kOnerror =>
      rcases hres : s.result with _ | o
      · simp only [srStep]
        rw [settleSR_of_none _ _ _ _ (by simpa using hres)]
        refine ⟨fun _ => by simp, by simp, by simp, by simp, ?_, ?_, ?_, ?_⟩
        · intro b hb; simp at hb
        · intro hby; simp at hby
        · intro hn; simp at hn
        · intro hnd
          simp at hnd
          exact absurd hnd err_stop_ne_no_data
      · simp only [srStep]
        rw [settleSR_of_some _ _ _ _ (by simp [hres])]
        refine ⟨fun _ => by simp [hres], h2, h3, h4, h5, h6, ?_, h8⟩
        intro hn; simp [hres] at hn
  | kTimeout =>
      by_cases hcl : s.cleared
      · simp only [srStep, if_pos hcl]
        exact ⟨h1, h2, h3, h4, h5, h6, h7, h8⟩
      · simp only [srStep, if_neg hcl]
        rcases hres : s.result with _ | o
        · rw [settleSR_of_none _ _ _ _ hres]
          have hrec : s.recState = RState.inactive := h7 hres
          by_cases hc : s.chunks = []
          · refine ⟨fun _ => by simp, by simp, by simp, by simp, ?_, ?_, ?_, ?_⟩
            · intro b hb
              simp [finalizeChunks, hc] at hb
            · intro _ c hc2
              simp at hc2
              subst hc2
              rfl
            · intro hn; simp at hn
            · intro _
              simp [hc, hrec]
          · refine ⟨fun _ => by simp, by simp, by simp, by simp, ?_, ?_, ?_, ?_⟩
            · intro b hb
              refine ⟨s.chunks, by simp, hc, ?_, by simp⟩
              simp [finalizeChunks, hc] at hb
              exact hb.symm
            · intro _ c hc2
              simp at hc2
              subst hc2
              rfl
            · intro hn; simp at hn
            · intro hnd
              simp [finalizeChunks, hc] at hnd
        · rw [settleSR_of_some _ _ _ _ (by simp [hres])]
          exact ⟨h1, h2, h3, h4, h5, h6, h7, h8⟩

lemma srFold_inv (m : String) :
    ∀ (L : List (Nat × StopEvKind)) (s : SRState), SRInv m s →
      SRInv m (L.foldl (srStep m) s) := by
  intro L
  induction L with
  | nil => intro s hs; simpa using hs
  | cons e L ih =>
      intro s hs
      simp only [List.foldl_cons]
      exact ih _ (srStep_inv m s e hs)

lemma srStart_inv (m : String) (chunks0 : List Blob) (rst : RState) (stopThrows : Bool) :
    SRInv m (srStart chunks0 rst stopThrows) := by
  cases stopThrows with
  | false =>
      refine ⟨by simp [srStart], by simp [srStart], by simp [srStart], by simp [srStart],
        ?_, ?_, ?_, ?_⟩
      · intro b hb; simp [srStart] at hb
      · intro hby; simp [srStart] at hby
      · intro _; simp [srStart]
      · intro hnd; simp [srStart] at hnd
  | true =>
      rw [srStart, if_pos rfl, settleSR_of_none _ _ _ _ rfl]
      refine ⟨fun _ => by simp, by simp, by simp, by simp, ?_, ?_, ?_, ?_⟩
      · intro b hb; simp at hb
      · intro hby; simp at hby
      · intro hn; simp at hn
      · intro hnd
        simp at hnd
        exact absurd hnd err_exc_ne_no_data

lemma srStart_settledAt (chunks0 : List Blob) (rst : RState) (stopThrows : Bool) :
    (srStart chunks0 rst stopThrows).settledAt = none ∨
    (srStart chunks0 rst stopThrows).settledAt = some 0 := by
  cases stopThrows with
  | false => left; simp [srStart]
  | true => right; rw [srStart, if_pos rfl, settleSR_of_none _ _ _ _ rfl]

lemma srStart_settledBy_false (chunks0 : List Blob) (rst : RState) :
    (srStart chunks0 rst false).settledBy = none := by
  simp [srStart]

lemma srStep_settledAt_cases (m : String) (s : SRState) (ev : Nat × StopEvKind) :
    (srStep m s ev).settledAt = s.settledAt ∨ (srStep m s ev).settledAt = some ev.1 := by
  obtain ⟨t, k⟩ := ev
  rcases hres : s.result with _ | o
  · cases k with
    | kData b => left; simp only [srStep]; split <;> simp
    | kOnstop => right; simp only [srStep]; rw [settleSR_of_none _ _ _ _ (by simpa using hres)]
    | kOnerror => right; simp only [srStep]; rw [settleSR_of_none _ _ _ _ (by simpa using hres)]
    | kTimeout =>
        by_cases hcl : s.cleared
        · left; simp [srStep, hcl]
        · right; simp only [srStep, if_neg hcl]
          rw [settleSR_of_none _ _ _ _ hres]
  · left; exact (srStep_frozen m s (t, k) (by simp [hres])).2.2.2

lemma srFold_settledAt_bound (m : String) (B : Nat) :
    ∀ (L : List (Nat × StopEvKind)) (s : SRState), (∀ e ∈ L, e.1 ≤ B) →
      (∀ t, s.settledAt = some t → t ≤ B) →
      ∀ t, (L.foldl (srStep m) s).settledAt = some t → t ≤ B := by
  intro L
  induction L with
  | nil => intro s _ hs t ht; exact hs t ht
  | cons e L ih =>
      intro s hL hs t
      simp only [List.foldl_cons]
      refine ih (srStep m s e) (fun x hx => hL x (List.mem_cons_of_mem e hx)) ?_ t
      intro t' ht'
      rcases srStep_settledAt_cases m s e with hc | hc
      · exact hs t' (hc ▸ ht')
      · rw [hc] at ht'
        have : t' = e.1 := by injection ht'.symm
        exact this ▸ hL e (List.mem_cons_self e L)

lemma srStep_settledBy_cases (m : String) (s : SRState) (ev : Nat × StopEvKind) :
    (srStep m s ev).settledBy = s.settledBy ∨
    ((srStep m s ev).settledBy = some Branch.bOnstop ∧ ev.2 = StopEvKind.kOnstop) ∨
    ((srStep m s ev).settledBy = some Branch.bTimeout ∧ ev.2 = StopEvKind.kTimeout) ∨
    ((srStep m s ev).settledBy = some Branch.bOnerror ∧ ev.2 = StopEvKind.kOnerror) := by
  obtain ⟨t, k⟩ := ev
  rcases hres : s.result with _ | o
  · cases k with
    | kData b => left; simp only [srStep]; split <;> simp
    | kOnstop =>
        right; left
        constructor
        · simp only [srStep]; rw [settleSR_of_none _ _ _ _ (by simpa using hres)]
        · rfl
    | kOnerror =>
        right; right; right
        constructor
        · simp only [srStep]; rw [settleSR_of_none _ _ _ _ (by simpa using hres)]
        · rfl
    | kTimeout =>
        by_cases hcl : s.cleared
        · left; simp [srStep, hcl]
        · right; right; left
          constructor
          · simp only [srStep, if_neg hcl]
            rw [settleSR_of_none _ _ _ _ hres]
          · rfl
  · left; exact (srStep_frozen m s (t, k) (by simp [hres])).2.1

lemma srFold_settledBy_no_error (m : String) :
    ∀ (L : List (Nat × StopEvKind)) (s : SRState),
      (∀ e ∈ L, e.2 ≠ StopEvKind.kOnerror) →
      (s.settledBy = none ∨ s.settledBy = some Branch.bOnstop ∨
        s.settledBy = some Branch.bTimeout) →
      ((L.foldl (srStep m) s).settledBy = none ∨
        (L.foldl (srStep m) s).settledBy = some Branch.bOnstop ∨
        (L.foldl (srStep m) s).settledBy = some Branch.bTimeout) := by
  intro L
  induction L with
  | nil => intro s _ hs; simpa using hs
  | cons e L ih =>
      intro s hL hs
      simp only [List.foldl_cons]
      refine ih (srStep m s e) (fun x hx => hL x (List.mem_cons_of_mem e hx)) ?_
      rcases srStep_settledBy_cases m s e with hc | hc | hc | hc
      · rw [hc]; exact hs
      · right; left; exact hc.1
      · right; right; exact hc.1
      · exact absurd hc.2 (hL e (List.mem_cons_self e L))


lemma srTimeout_some (m : String) (sA : SRState) (t : Nat) (hinvA : SRInv m sA) :
    (srStep m sA (t, StopEvKind.kTimeout)).result.isSome := by
  rcases hres : sA.result with _ | o
  · have hcl : sA.cleared = false := by
      cases hclv : sA.cleared
      · rfl
      · have h := hinvA.1 hclv
        rw [hres] at h; simp at h
    simp only [srStep, hcl]
    rw [settleSR_of_none _ _ _ _ hres]
    simp
  · have h := (srStep_frozen m sA (t, StopEvKind.kTimeout) (by simp [hres])).1
    rw [h, hres]; simp

lemma srRun_bounded (m : String) (timeoutMs : Nat) (A B : List (Nat × StopEvKind))
    (s1 : SRState) (hinv1 : SRInv m s1)
    (hA : ∀ e ∈ A, e.1 ≤ timeoutMs)
    (hs1 : ∀ t, s1.settledAt = some t → t ≤ timeoutMs) (r : SRState)
    (hr : r = B.foldl (srStep m)
      (srStep m (A.foldl (srStep m) s1) (timeoutMs, StopEvKind.kTimeout))) :
    r.result.isSome ∧ ∃ t, r.settledAt = some t ∧ t ≤ timeoutMs := by
  subst hr
  have hinvA : SRInv m (A.foldl (srStep m) s1) := srFold_inv m A s1 hinv1
  have hboundA : ∀ t, (A.foldl (srStep m) s1).settledAt = some t → t ≤ timeoutMs :=
    srFold_settledAt_bound m timeoutMs A s1 hA hs1
  have hTsome : (srStep m (A.foldl (srStep m) s1)
      (timeoutMs, StopEvKind.kTimeout)).result.isSome :=
    srTimeout_some m _ timeoutMs hinvA
  have hinvT : SRInv m (srStep m (A.foldl (srStep m) s1) (timeoutMs, StopEvKind.kTimeout)) :=
    srStep_inv m _ _ hinvA
  obtain ⟨t0, ht0⟩ := Option.isSome_iff_exists.mp ((hinvT.2.2.2.1).mp hTsome)
  have ht0le : t0 ≤ timeoutMs := by
    rcases srStep_settledAt_cases m (A.foldl (srStep m) s1)
        (timeoutMs, StopEvKind.kTimeout) with hc | hc
    · exact hboundA t0 (hc ▸ ht0)
    · rw [hc] at ht0
      injection ht0 with h
      omega
  have hfro := srFold_frozen m B _ hTsome
  refine ⟨?_, t0, ?_, ht0le⟩
  · rw [hfro.1]; exact hTsome
  · rw [hfro.2.2.2]; exact ht0

lemma srRun_branch (m : String) (timeoutMs : Nat) (A B : List (Nat × StopEvKind))
    (s1 : SRState) (hinv1 : SRInv m s1)
    (hA : ∀ e ∈ A, e.2 ≠ StopEvKind.kOnerror) (hB : ∀ e ∈ B, e.2 ≠ StopEvKind.kOnerror)
    (hs1by : s1.settledBy = none) (r : SRState)
    (hr : r = B.foldl (srStep m)
      (srStep m (A.foldl (srStep m) s1) (timeoutMs, StopEvKind.kTimeout))) :
    r.settledBy = some Branch.bOnstop ∨ r.settledBy = some Branch.bTimeout := by
  subst hr
  have hinvA : SRInv m (A.foldl (srStep m) s1) := srFold_inv m A s1 hinv1
  have hAby : (A.foldl (srStep m) s1).settledBy = none ∨
      (A.foldl (srStep m) s1).settledBy = some Branch.bOnstop ∨
      (A.foldl (srStep m) s1).settledBy = some Branch.bTimeout :=
    srFold_settledBy_no_error m A s1 hA (Or.inl hs1by)
  have hTsome : (srStep m (A.foldl (srStep m) s1)
      (timeoutMs, StopEvKind.kTimeout)).result.isSome :=
    srTimeout_some m _ timeoutMs hinvA
  have hTby : (srStep m (A.foldl (srStep m) s1)
        (timeoutMs, StopEvKind.kTimeout)).settledBy = none ∨
      (srStep m (A.foldl (srStep m) s1)
        (timeoutMs, StopEvKind.kTimeout)).settledBy = some Branch.bOnstop ∨
      (srStep m (A.foldl (srStep m) s1)
        (timeoutMs, StopEvKind.kTimeout)).settledBy = some Branch.bTimeout := by
    rcases srStep_settledBy_cases m (A.foldl (srStep m) s1)
        (timeoutMs, StopEvKind.kTimeout) with hc | hc | hc | hc
    · rw [hc]; exact hAby
    · exact absurd hc.2 (by simp)
    · right; right; exact hc.1
    · exact absurd hc.2 (by simp)
  have hfinBy := srFold_settledBy_no_error m B _ hB hTby
  have hfro := srFold_frozen m B _ hTsome
  have hfinSome : (B.foldl (srStep m)
      (srStep m (A.foldl (srStep m) s1) (timeoutMs, StopEvKind.kTimeout))).result.isSome := by
    rw [hfro.1]; exact hTsome
  have hinvF : SRInv m (B.foldl (srStep m)
      (srStep m (A.foldl (srStep m) s1) (timeoutMs, StopEvKind.kTimeout))) :=
    srFold_inv m B _ (srStep_inv m _ _ hinvA)
  have hbySome := (hinvF.2.1).mp hfinSome
  rcases hfinBy with hn | h | h
  · rw [hn] at hbySome; simp at hbySome
  · exact Or.inl h
  · exact Or.inr h

lemma runStop_decomp (timeoutMs : Nat) (chunks0 : List Blob) (rst : RState)
    (m : String) (stopThrows : Bool) (events : List (Nat × ExtEv)) :
    runStopRecorder timeoutMs chunks0 rst m stopThrows events =
      ((events.map (fun e => (e.1, e.2.toKind))).filter
          (fun e => ¬ e.1 < timeoutMs)).foldl (srStep m)
        (srStep m
          (((events.map (fun e => (e.1, e.2.toKind))).filter
              (fun e => e.1 < timeoutMs)).foldl (srStep m)
            (srStart chunks0 rst stopThrows))
          (timeoutMs, StopEvKind.kTimeout)) := by
  simp [runStopRecorder, mergedEvents, List.foldl_append]

lemma runStop_inv (timeoutMs : Nat) (chunks0 : List Blob) (rst : RState)
    (m : String) (stopThrows : Bool) (events : List (Nat × ExtEv)) :
    SRInv m (runStopRecorder timeoutMs chunks0 rst m stopThrows events) :=
  srFold_inv m _ _ (srStart_inv m chunks0 rst stopThrows)


lemma toKind_ne_onerror (x : ExtEv) (hx : x ≠ ExtEv.xOnerror) :
    x.toKind ≠ StopEvKind.kOnerror := by
  cases x <;> simp [ExtEv.toKind] at *

lemma mem_filter_lt_le {timeoutMs : Nat} {L : List (Nat × StopEvKind)}
    {e : Nat × StopEvKind} (he : e ∈ L.filter (fun e => e.1 < timeoutMs)) :
    e.1 ≤ timeoutMs := by
  have h := (List.mem_filter.mp he).2
  exact Nat.le_of_lt (of_decide_eq_true h)

lemma srStart_settledAt_le (chunks0 : List Blob) (rst : RState) (stopThrows : Bool)
    (timeoutMs : Nat) :
    ∀ t, (srStart chunks0 rst stopThrows).settledAt = some t → t ≤ timeoutMs := by
  intro t ht
  rcases srStart_settledAt chunks0 rst stopThrows with h0 | h0
  · rw [h0] at ht; cases ht
  · rw [h0] at ht
    injection ht with h
    omega

lemma mapped_no_onerror {events : List (Nat × ExtEv)}
    (hnoerr : ∀ e ∈ events, e.2 ≠ ExtEv.xOnerror) (p : Nat × StopEvKind → Bool) :
    ∀ e ∈ (events.map (fun e => (e.1, e.2.toKind))).filter p,
      e.2 ≠ StopEvKind.kOnerror := by
  intro e he
  have hm : e ∈ events.map (fun e => (e.1, e.2.toKind)) := List.mem_of_mem_filter he
  obtain ⟨x, hx, hxe⟩ := List.mem_map.mp hm
  rw [← hxe]
  exact toKind_ne_onerror x.2 (hnoerr x hx)

/-- C1 (amended): every `stopRecorderWithTimeout` run settles — the promise is
resolved or rejected exactly once — at a time bounded by `timeoutMs` (default
`RECORDER_STOP_TIMEOUT_MS = 3000`), even if the recorder never fires its
`onstop` event; and when `mediaRecorder.stop()` does not throw and no recorder
error event occurs, the settlement is produced by exactly one of the two race
outcomes: the natural `onstop` handler or the timeout branch. -/
theorem c1_stop_bounded_race (timeoutMs : Nat) (chunks0 : List Blob) (rst : RState)
    (m : String) (stopThrows : Bool) (events : List (Nat × ExtEv)) :
    (runStopRecorder timeoutMs chunks0 rst m stopThrows events).result.isSome ∧
    (∃ t, (runStopRecorder timeoutMs chunks0 rst m stopThrows events).settledAt = some t ∧
      t ≤ timeoutMs) ∧
    (stopThrows = false → (∀ e ∈ events, e.2 ≠ ExtEv.xOnerror) →
      ((runStopRecorder timeoutMs chunks0 rst m stopThrows events).settledBy =
          some Branch.bOnstop ∨
        (runStopRecorder timeoutMs chunks0 rst m stopThrows events).settledBy =
          some Branch.bTimeout)) ∧
    RECORDER_STOP_TIMEOUT_MS = 3000 := by
  have hdec := runStop_decomp timeoutMs chunks0 rst m stopThrows events
  have hbounded := srRun_bounded m timeoutMs _ _ _ (srStart_inv m chunks0 rst stopThrows)
    (fun e he => mem_filter_lt_le he)
    (srStart_settledAt_le chunks0 rst stopThrows timeoutMs) _ hdec
  refine ⟨hbounded.1, hbounded.2, ?_, rfl⟩
  intro hst hnoerr
  subst hst
  exact srRun_branch m timeoutMs _ _ _ (srStart_inv m chunks0 rst false)
    (mapped_no_onerror hnoerr _) (mapped_no_onerror hnoerr _)
    (srStart_settledBy_false chunks0 rst) _
    (runStop_decomp timeoutMs chunks0 rst m false events)

/-- C1 counterexample: a recorder error event arriving while the stop is
pending produces the settlement, so it is not true that one of the two race
outcomes (natural `onstop` or timeout) always produces the result — here the
settling branch is the `onerror` handler, rejecting with `ERR_STOP_ERROR`. -/
theorem c1_counterexample :
    (runStopRecorder 3000 [blobA] RState.recording "video/webm" false
        [(10, ExtEv.xOnerror)]).settledBy = some Branch.bOnerror ∧
    (runStopRecorder 3000 [blobA] RState.recording "video/webm" false
        [(10, ExtEv.xOnerror)]).result =
      some (StopOutcome.rejected ERR_STOP_ERROR) :=
  ⟨rfl, rfl⟩

/-- Witness for C1: a fully stalled recorder (no events at all) settles via the
timeout branch, within the default stop timeout. -/
theorem c1_stop_bounded_race_witness :
    (∃ t, (runStopRecorder 3000 [blobA] RState.recording "video/webm" false
        []).settledAt = some t ∧ t ≤ 3000) ∧
    ((runStopRecorder 3000 [blobA] RState.recording "video/webm" false
        []).settledBy = some Branch.bOnstop ∨
      (runStopRecorder 3000 [blobA] RState.recording "video/webm" false
        []).settledBy = some Branch.bTimeout) := by
  have h := c1_stop_bounded_race 3000 [blobA] RState.recording "video/webm" false []
  exact ⟨h.2.1, h.2.2.1 rfl (by simp)⟩

/-- C2: for every stop, under either finalization path — the `onstop` handler
or the timeout branch — an empty buffer at that instant yields exactly the
`ERR_NO_DATA` rejection, and the promise never resolves with a container built
from an empty buffer. -/
theorem c2_no_data_on_empty (timeoutMs : Nat) (chunks0 : List Blob) (rst : RState)
    (m : String) (stopThrows : Bool) (events : List (Nat × ExtEv)) :
    (((runStopRecorder timeoutMs chunks0 rst m stopThrows events).settledBy =
        some Branch.bOnstop ∨
      (runStopRecorder timeoutMs chunks0 rst m stopThrows events).settledBy =
        some Branch.bTimeout) →
      (runStopRecorder timeoutMs chunks0 rst m stopThrows events).settledChunks =
        some [] →
      (runStopRecorder timeoutMs chunks0 rst m stopThrows events).result =
        some (StopOutcome.rejected ERR_NO_DATA)) ∧
    (∀ b, (runStopRecorder timeoutMs chunks0 rst m stopThrows events).result =
        some (StopOutcome.resolved b) →
      ∃ c, (runStopRecorder timeoutMs chunks0 rst m stopThrows events).settledChunks =
          some c ∧ c ≠ [] ∧ b = mkBlob c m) := by
  have hinv := runStop_inv timeoutMs chunks0 rst m stopThrows events
  constructor
  · intro hby hsc
    have h := hinv.2.2.2.2.2.1 hby [] hsc
    simpa [finalizeChunks] using h
  · intro b hb
    obtain ⟨c, hc1, hc2, hc3, _⟩ := hinv.2.2.2.2.1 b hb
    exact ⟨c, hc1, hc2, hc3⟩

/-- Witness for C2: a stop with an empty buffer and a stalled recorder is
rejected with `ERR_NO_DATA` by the timeout branch. -/
theorem c2_no_data_on_empty_witness :
    (runStopRecorder 3000 ([] : List Blob) RState.recording "video/webm" false
        []).result = some (StopOutcome.rejected ERR_NO_DATA) := by
  have h := c2_no_data_on_empty 3000 [] RState.recording "video/webm" false []
  exact h.1 (Or.inr rfl) rfl

/-- C8: finalization is pure concatenation — whenever a stop resolves, the
returned container is built from the non-empty buffer snapshot taken at
settlement: its bytes are the chunk bytes in buffer order, its byte length is
the sum of the chunk sizes, and its declared content type is the configured
MIME type. -/
theorem c8_container_concat (timeoutMs : Nat) (chunks0 : List Blob) (rst : RState)
    (m : String) (stopThrows : Bool) (events : List (Nat × ExtEv)) :
    ∀ b, (runStopRecorder timeoutMs chunks0 rst m stopThrows events).result =
        some (StopOutcome.resolved b) →
      ∃ c, (runStopRecorder timeoutMs chunks0 rst m stopThrows events).settledChunks =
          some c ∧ c ≠ [] ∧
        b.bytes = (c.map Blob.bytes).flatten ∧
        b.size = (c.map Blob.size).sum ∧
        b.type = m := by
  have hinv := runStop_inv timeoutMs chunks0 rst m stopThrows events
  intro b hb
  obtain ⟨c, hc1, hc2, hc3, _⟩ := hinv.2.2.2.2.1 b hb
  subst hc3
  refine ⟨c, hc1, hc2, rfl, ?_, rfl⟩
  show (mkBlob c m).size = (c.map Blob.size).sum
  simp only [mkBlob, Blob.size, List.length_flatten, List.map_map]
  rfl

/-- Witness for C8: five chunks delivered before the natural recorder stop
produce a container of the summed size, in order, with the configured type. -/
theorem c8_container_concat_witness :
    ∃ c, (runStopRecorder 3000 fiveChunks RState.recording "video/webm" false
        [(100, ExtEv.xOnstop)]).settledChunks = some c ∧ c ≠ [] ∧
      (mkBlob fiveChunks "video/webm").bytes = (c.map Blob.bytes).flatten ∧
      (mkBlob fiveChunks "video/webm").size = (c.map Blob.size).sum ∧
      (mkBlob fiveChunks "video/webm").type = "video/webm" :=
  c8_container_concat 3000 fiveChunks RState.recording "video/webm" false
    [(100, ExtEv.xOnstop)] (mkBlob fiveChunks "video/webm") rfl

/-- C9: when a stop fails with `ERR_NO_DATA`, the buffer snapshot at
finalization is empty (nothing is retained) and the recorder has been stopped,
leaving the session inactive; the failure comes from the `onstop` or timeout
finalization path. -/
theorem c9_no_data_leaves_inactive (timeoutMs : Nat) (chunks0 : List Blob)
    (rst : RState) (m : String) (stopThrows : Bool) (events : List (Nat × ExtEv)) :
    (runStopRecorder timeoutMs chunks0 rst m stopThrows events).result =
        some (StopOutcome.rejected ERR_NO_DATA) →
      ((runStopRecorder timeoutMs chunks0 rst m stopThrows events).settledChunks =
          some [] ∧
        (runStopRecorder timeoutMs chunks0 rst m stopThrows events).recState =
          RState.inactive ∧
        ((runStopRecorder timeoutMs chunks0 rst m stopThrows events).settledBy =
            some Branch.bOnstop ∨
          (runStopRecorder timeoutMs chunks0 rst m stopThrows events).settledBy =
            some Branch.bTimeout)) :=
  (runStop_inv timeoutMs chunks0 rst m stopThrows events).2.2.2.2.2.2.2

/-- Witness for C9: a stop over an empty buffer whose recorder fires `onstop`
at 50ms fails with `ERR_NO_DATA`, with an empty snapshot and an inactive
recorder. -/
theorem c9_no_data_leaves_inactive_witness :
    (runStopRecorder 3000 ([] : List Blob) RState.paused "video/webm" false
        [(50, ExtEv.xOnstop)]).settledChunks = some [] ∧
    (runStopRecorder 3000 ([] : List Blob) RState.paused "video/webm" false
        [(50, ExtEv.xOnstop)]).recState = RState.inactive ∧
    ((runStopRecorder 3000 ([] : List Blob) RState.paused "video/webm" false
        [(50, ExtEv.xOnstop)]).settledBy = some Branch.bOnstop ∨
      (runStopRecorder 3000 ([] : List Blob) RState.paused "video/webm" false
        [(50, ExtEv.xOnstop)]).settledBy = some Branch.bTimeout) :=
  c9_no_data_leaves_inactive 3000 [] RState.paused "video/webm" false
    [(50, ExtEv.xOnstop)] rfl


lemma isEmpty_false_of_ne {l : List Blob} (h : l ≠ []) : l.isEmpty = false := by
  cases l with
  | nil => exact absurd rfl h
  | cons a t => rfl

lemma onErrorHandler_empty (s : MgrState) (stopThrows : Bool) (hc : s.chunks = []) :
    onErrorHandler s stopThrows = ({ s with heartbeatActive := false }, none) := by
  unfold onErrorHandler
  simp [hc]

lemma onErrorHandler_none (s : MgrState) (stopThrows : Bool) (hc : s.chunks ≠ [])
    (hr : s.recorder = none) :
    onErrorHandler s stopThrows = ({ s with heartbeatActive := false }, none) := by
  unfold onErrorHandler
  simp [isEmpty_false_of_ne hc, hr]

lemma onErrorHandler_stop (s : MgrState) (stopThrows : Bool) (r : MRecorder)
    (hc : s.chunks ≠ []) (hr : s.recorder = some r)
    (hcond : r.rstate ≠ RState.inactive ∧ ¬ stopThrows) :
    onErrorHandler s stopThrows =
      ({ s with heartbeatActive := false,
                recorder := some ⟨RState.inactive, r.stream⟩,
                pendingRestarts :=
                  s.pendingRestarts ++ [(ERROR_RECOVERY_DELAY_MS, r.stream)] }, none) := by
  unfold onErrorHandler
  simp only [isEmpty_false_of_ne hc, Bool.false_eq_true, if_false, hr]
  rw [if_pos hcond]

lemma onErrorHandler_nostop (s : MgrState) (stopThrows : Bool) (r : MRecorder)
    (hc : s.chunks ≠ []) (hr : s.recorder = some r)
    (hcond : ¬ (r.rstate ≠ RState.inactive ∧ ¬ stopThrows)) :
    onErrorHandler s stopThrows =
      ({ s with heartbeatActive := false,
                pendingRestarts :=
                  s.pendingRestarts ++ [(ERROR_RECOVERY_DELAY_MS, r.stream)] }, none) := by
  unfold onErrorHandler
  simp only [isEmpty_false_of_ne hc, Bool.false_eq_true, if_false, hr]
  rw [if_neg hcond]

lemma onErrorHandler_basic (s : MgrState) (stopThrows : Bool) :
    (onErrorHandler s stopThrows).2 = none ∧
    (onErrorHandler s stopThrows).1.heartbeatActive = false ∧
    (onErrorHandler s stopThrows).1.chunks = s.chunks := by
  by_cases hc : s.chunks = []
  · rw [onErrorHandler_empty s stopThrows hc]
    exact ⟨rfl, rfl, rfl⟩
  · rcases hr : s.recorder with _ | r
    · rw [onErrorHandler_none s stopThrows hc hr]
      exact ⟨rfl, rfl, rfl⟩
    · by_cases hcond : r.rstate ≠ RState.inactive ∧ ¬ stopThrows
      · rw [onErrorHandler_stop s stopThrows r hc hr hcond]
        exact ⟨rfl, rfl, rfl⟩
      · rw [onErrorHandler_nostop s stopThrows r hc hr hcond]
        exact ⟨rfl, rfl, rfl⟩

lemma mgrStep_pause_chunks (s : MgrState) : (mgrStep s MgrEv.evPause).chunks = s.chunks := by
  rcases hrec : s.recorder with _ | r <;> simp only [mgrStep, hrec]
  split <;> rfl

lemma mgrStep_resume_chunks (s : MgrState) :
    (mgrStep s MgrEv.evResume).chunks = s.chunks := by
  rcases hrec : s.recorder with _ | r <;> simp only [mgrStep, hrec]
  split <;> rfl

lemma mgrStep_stopCall_chunks (s : MgrState) :
    (mgrStep s MgrEv.evStopCall).chunks = s.chunks := by
  rcases hrec : s.recorder with _ | r <;> simp only [mgrStep, hrec]
  split <;> rfl

/-- C3 (amended): the chunk buffer changes only in three ways — a data event
appends one chunk at the end (exactly when its size is positive), `start`
(including the recovery restart) resets it to empty, and every other operation
(`pause`, `resume`, the synchronous part of `stop`, the recorder `onstop`, the
`onerror` handler) leaves it untouched. In particular chunks are never
reordered, and removal only happens as the wholesale reset performed by a
(re)start. -/
theorem c3_buffer_append_only (s : MgrState) (e : MgrEv) :
    ((mgrStep s e).chunks = s.chunks ∨ (∃ b, (mgrStep s e).chunks = s.chunks ++ [b]) ∨
      (mgrStep s e).chunks = []) ∧
    (∀ b, e = MgrEv.evData b →
      (mgrStep s e).chunks = if 0 < b.size then s.chunks ++ [b] else s.chunks) ∧
    ((e = MgrEv.evPause ∨ e = MgrEv.evResume ∨ e = MgrEv.evStopCall ∨
        e = MgrEv.evOnstop ∨ (∃ st, e = MgrEv.evError st)) →
      (mgrStep s e).chunks = s.chunks) ∧
    ((∃ st, e = MgrEv.evStart st) ∨
        (e = MgrEv.evRestartFire ∧ s.pendingRestarts ≠ []) →
      (mgrStep s e).chunks = []) := by
  cases e with
  | evStart stream =>
      refine ⟨Or.inr (Or.inr ?_), by simp, by simp, fun _ => ?_⟩ <;>
        simp [mgrStep, startMgr]
  | evData b =>
      refine ⟨?_, ?_, by simp, by simp⟩
      · by_cases hb : 0 < b.size
        · exact Or.inr (Or.inl ⟨b, by simp [mgrStep, hb]⟩)
        · exact Or.inl (by simp [mgrStep, hb])
      · intro b2 hb2
        injection hb2 with h
        subst h
        simp only [mgrStep]
        split <;> simp_all
  | evError st =>
      exact ⟨Or.inl ((onErrorHandler_basic s st).2.2), by simp,
        fun _ => (onErrorHandler_basic s st).2.2, by simp⟩
  | evPause =>
      exact ⟨Or.inl (mgrStep_pause_chunks s), by simp,
        fun _ => mgrStep_pause_chunks s, by simp⟩
  | evResume =>
      exact ⟨Or.inl (mgrStep_resume_chunks s), by simp,
        fun _ => mgrStep_resume_chunks s, by simp⟩
  | evStopCall =>
      exact ⟨Or.inl (mgrStep_stopCall_chunks s), by simp,
        fun _ => mgrStep_stopCall_chunks s, by simp⟩
  | evOnstop =>
      exact ⟨Or.inl rfl, by simp, fun _ => rfl, by simp⟩
  | evRestartFire =>
      refine ⟨?_, by simp, by simp, ?_⟩
      · cases hp : s.pendingRestarts with
        | nil => exact Or.inl (by simp [mgrStep, hp])
        | cons p rest =>
            exact Or.inr (Or.inr (by simp [mgrStep, hp, startMgr]))
      · intro h
        rcases h with ⟨st, h⟩ | ⟨_, hp⟩
        · cases h
        · cases hps : s.pendingRestarts with
          | nil => exact absurd hps hp
          | cons p rest => simp [mgrStep, hps, startMgr]

/-- C3 counterexample: after `start`, one buffered chunk and a recorder error,
the scheduled recovery restart fires and resets the non-empty buffer to empty —
an existing chunk is removed (by a step taken while the recorder is not
recording), refuting that chunks are never removed and that the buffer is
frozen outside Recording. -/
theorem c3_counterexample :
    (runMgr [MgrEv.evStart streamA, MgrEv.evData blobA,
        MgrEv.evError false]).chunks = [blobA] ∧
    (runMgr [MgrEv.evStart streamA, MgrEv.evData blobA,
        MgrEv.evError false]).pendingRestarts = [(ERROR_RECOVERY_DELAY_MS, streamA)] ∧
    (runMgr [MgrEv.evStart streamA, MgrEv.evData blobA,
        MgrEv.evError false]).recorder = some ⟨RState.inactive, streamA⟩ ∧
    (runMgr [MgrEv.evStart streamA, MgrEv.evData blobA, MgrEv.evError false,
        MgrEv.evRestartFire]).chunks = [] :=
  ⟨rfl, rfl, rfl, rfl⟩

/-- Witness for C3: a data chunk of positive size is appended at the end of the
buffer, and a `pause` leaves the buffer unchanged. -/
theorem c3_buffer_append_only_witness :
    (mgrStep mgrEmptyErr (MgrEv.evData blobA)).chunks =
      (if 0 < blobA.size then mgrEmptyErr.chunks ++ [blobA] else mgrEmptyErr.chunks) ∧
    (mgrStep mgrEmptyErr MgrEv.evPause).chunks = mgrEmptyErr.chunks := by
  have h1 := c3_buffer_append_only mgrEmptyErr (MgrEv.evData blobA)
  have h2 := c3_buffer_append_only mgrEmptyErr MgrEv.evPause
  exact ⟨h1.2.1 blobA rfl, h2.2.2.1 (Or.inl rfl)⟩

/-- C4 (amended): the `onerror` handler never propagates anything to the
caller; it clears the heartbeat and leaves the buffer untouched; with a
non-empty buffer it schedules exactly one recovery restart after
`ERROR_RECOVERY_DELAY_MS = 500` against the stream of the failing recorder,
force-stopping that recorder (a throwing force-stop is swallowed and does not
prevent the restart); with an empty buffer it skips recovery entirely and the
error is only logged — no `RecordingFailed` condition reaches the caller. -/
theorem c4_error_recovery (s : MgrState) (stopThrows : Bool) :
    (onErrorHandler s stopThrows).2 = none ∧
    (onErrorHandler s stopThrows).1.heartbeatActive = false ∧
    (onErrorHandler s stopThrows).1.chunks = s.chunks ∧
    (s.chunks ≠ [] → ∀ r, s.recorder = some r →
      (onErrorHandler s stopThrows).1.pendingRestarts =
        s.pendingRestarts ++ [(ERROR_RECOVERY_DELAY_MS, r.stream)] ∧
      (stopThrows = false → r.rstate ≠ RState.inactive →
        (onErrorHandler s stopThrows).1.recorder = some ⟨RState.inactive, r.stream⟩) ∧
      (stopThrows = true → (onErrorHandler s stopThrows).1.recorder = s.recorder)) ∧
    (s.chunks = [] → (onErrorHandler s stopThrows).1.recorder = s.recorder ∧
      (onErrorHandler s stopThrows).1.pendingRestarts = s.pendingRestarts) ∧
    ERROR_RECOVERY_DELAY_MS = 500 := by
  obtain ⟨hb1, hb2, hb3⟩ := onErrorHandler_basic s stopThrows
  refine ⟨hb1, hb2, hb3, ?_, ?_, rfl⟩
  · intro hne r hr
    refine ⟨?_, ?_, ?_⟩
    · by_cases hcond : r.rstate ≠ RState.inactive ∧ ¬ stopThrows
      · rw [onErrorHandler_stop s stopThrows r hne hr hcond]
      · rw [onErrorHandler_nostop s stopThrows r hne hr hcond]
    · intro hst hrs
      rw [onErrorHandler_stop s stopThrows r hne hr ⟨hrs, by simp [hst]⟩]
    · intro hst
      rw [onErrorHandler_nostop s stopThrows r hne hr (by simp [hst])]
  · intro hce
    rw [onErrorHandler_empty s stopThrows hce]
    exact ⟨rfl, rfl⟩

/-- C4 counterexample: a recorder error with an empty chunk buffer surfaces
nothing to the caller (the handler returns without throwing, rejecting or
invoking any callback) and schedules no recovery — refuting that a
`RecordingFailed` condition is surfaced to the caller. -/
theorem c4_counterexample :
    ¬ ((onErrorHandler mgrEmptyErr false).2.isSome = true) ∧
    (onErrorHandler mgrEmptyErr false).1.pendingRestarts = [] := by
  exact ⟨by decide, rfl⟩

/-- Witness for C4: with one buffered chunk, an error on a recording recorder
force-stops it and schedules exactly one restart at 500 ms against its own
stream; nothing is surfaced. -/
theorem c4_error_recovery_witness :
    (onErrorHandler ⟨some ⟨RState.recording, streamA⟩, [blobA], "video/webm", true, []⟩
        false).2 = none ∧
    (onErrorHandler ⟨some ⟨RState.recording, streamA⟩, [blobA], "video/webm", true, []⟩
        false).1.pendingRestarts = [(ERROR_RECOVERY_DELAY_MS, streamA)] ∧
    (onErrorHandler ⟨some ⟨RState.recording, streamA⟩, [blobA], "video/webm", true, []⟩
        false).1.recorder = some ⟨RState.inactive, streamA⟩ := by
  have h := c4_error_recovery
    ⟨some ⟨RState.recording, streamA⟩, [blobA], "video/webm", true, []⟩ false
  refine ⟨h.1, ?_, ?_⟩
  · have h2 := (h.2.2.2.1 (by simp) ⟨RState.recording, streamA⟩ rfl).1
    simpa using h2
  · exact (h.2.2.2.1 (by simp) ⟨RState.recording, streamA⟩ rfl).2.1 rfl (by simp)


/-- C5: on every heartbeat tick, the `requestData` liveness probe is invoked if
and only if the recorder exists in the `recording` state and the elapsed time
since the last received data exceeds `HEARTBEAT_STALL_MS = 1000`; in particular
it is never invoked while the state is not `recording`, and nothing — not even
a throwing probe — escapes the tick (the handler catches and logs). -/
theorem c5_heartbeat_guard (now lastData : Nat) (recorder : Option RState)
    (probeThrows : Bool) :
    ((heartbeatTick now lastData recorder probeThrows).1 = true ↔
      (recorder = some RState.recording ∧
        (now : Int) - (lastData : Int) > (HEARTBEAT_STALL_MS : Int))) ∧
    (heartbeatTick now lastData recorder probeThrows).2 = none ∧
    HEARTBEAT_STALL_MS = 1000 := by
  have key : ((heartbeatTick now lastData recorder probeThrows).1 = true ↔
      (recorder = some RState.recording ∧
        (now : Int) - (lastData : Int) > (HEARTBEAT_STALL_MS : Int))) ∧
      (heartbeatTick now lastData recorder probeThrows).2 = none := by
    unfold heartbeatTick
    by_cases h : (now : Int) - (lastData : Int) > (HEARTBEAT_STALL_MS : Int)
    · rcases recorder with _ | r
      · simp [h]
      · cases r <;> simp [h]
    · rcases recorder with _ | r
      · simp [h]
      · cases r <;> simp [h]
  exact ⟨key.1, key.2, rfl⟩

/-- Witness for C5: a 1001 ms stall while recording triggers the probe, the
same stall while paused does not, and a throwing probe escapes nothing. -/
theorem c5_heartbeat_guard_witness :
    (heartbeatTick 2001 1000 (some RState.recording) true).1 = true ∧
    (heartbeatTick 2001 1000 (some RState.paused) false).1 = false ∧
    (heartbeatTick 2001 1000 (some RState.recording) true).2 = none := by
  have h1 := c5_heartbeat_guard 2001 1000 (some RState.recording) true
  exact ⟨h1.1.mpr ⟨rfl, by decide⟩, by decide, h1.2.1⟩

/-- C6 (amended): an `updateStream` call whose constraints target only the
audio kind, on a manager that holds a stream and is not configured audio-only,
with `maintainVideo` enabled, leaves the video tracks identity-unchanged,
mutates the same stream object in place (same id), makes exactly one
`getUserMedia` acquisition restricted to audio (`video: false`), and stops
exactly the previous audio tracks. (A manager configured audio-only skips the
branch and makes no acquisition at all — see the counterexample.) -/
theorem c6_audio_swap (s : MSMState) (st : MStream) (c : Constraints)
    (videoDeviceChanged : Bool) (envAudio envVideo : List Nat) (freshStream : MStream)
    (hs : s.stream = some st) (hao : s.audioOnly = false)
    (ha : c.audio = true) (hv : c.video = false) :
    ∃ st2,
      (updateStream s c true videoDeviceChanged envAudio envVideo freshStream).1.stream =
        some st2 ∧
      st2.id = st.id ∧ st2.videoTracks = st.videoTracks ∧ st2.audioTracks = envAudio ∧
      (updateStream s c true videoDeviceChanged envAudio envVideo freshStream).2.1 =
        [⟨true, false⟩] ∧
      (updateStream s c true videoDeviceChanged envAudio envVideo freshStream).2.2 =
        st.audioTracks := by
  refine ⟨{ st with audioTracks := envAudio }, ?_⟩
  unfold updateStream
  simp [hs, hao, ha, hv]

/-- C6 counterexample: with the manager configured audio-only, the same
audio-targeting update over a live stream with `maintainVideo` enabled makes
zero acquisition calls (the code guards the audio branch with
`!this.audioOnly`), refuting that exactly one acquisition call is made. -/
theorem c6_counterexample :
    (updateStream msmAudioOnly ⟨true, false⟩ true false [31] [] emptyStream).2.1 = [] ∧
    (updateStream msmAudioOnly ⟨true, false⟩ true false [31] [] emptyStream).1.stream =
      msmAudioOnly.stream :=
  ⟨rfl, rfl⟩

/-- Witness for C6: a concrete audio-device swap over a live audio+video stream
keeps the video track and stream identity and performs one audio-only
acquisition. -/
theorem c6_audio_swap_witness :
    ∃ st2,
      (updateStream ⟨some streamA, false⟩ ⟨true, false⟩ true false [11] []
        emptyStream).1.stream = some st2 ∧
      st2.id = streamA.id ∧ st2.videoTracks = streamA.videoTracks ∧
      st2.audioTracks = [11] ∧
      (updateStream ⟨some streamA, false⟩ ⟨true, false⟩ true false [11] []
        emptyStream).2.1 = [⟨true, false⟩] ∧
      (updateStream ⟨some streamA, false⟩ ⟨true, false⟩ true false [11] []
        emptyStream).2.2 = streamA.audioTracks :=
  c6_audio_swap ⟨some streamA, false⟩ streamA ⟨true, false⟩ false [11] [] emptyStream
    rfl rfl rfl rfl

/-- C7 counterexample: starting over a provided source with zero channels does
not fail with the `NoSource` error — `validateStream` only checks that a
stream object is present, so the start succeeds and a recorder is started over
the channel-less source. -/
theorem c7_counterexample :
    (startMgr mgrInit (some emptyStream) none).2 = none ∧
    (startMgr mgrInit (some emptyStream) none).1.recorder =
      some ⟨RState.recording, emptyStream⟩ :=
  ⟨rfl, rfl⟩

/-- C7 (amended): `start` fails with the `NoSource` error (`ERR_STREAM_NOT_PROVIDED`)
exactly when no source object is provided at all; any provided source — with
or without channels — passes validation, and when recorder construction
succeeds the recorder starts recording over it with a reset buffer. -/
theorem c7_no_source_guard (s : MgrState) (streamOpt : Option MStream)
    (createErr : Option String) :
    ((startMgr s streamOpt createErr).2 = some StartErr.noStream ↔ streamOpt = none) ∧
    (∀ st, streamOpt = some st → createErr = none →
      (startMgr s streamOpt createErr).2 = none ∧
      (startMgr s streamOpt createErr).1.recorder = some ⟨RState.recording, st⟩ ∧
      (startMgr s streamOpt createErr).1.chunks = []) := by
  cases streamOpt with
  | none => cases createErr <;> simp [startMgr]
  | some st => cases createErr <;> simp [startMgr]

/-- Witness for C7 (amended): a missing stream yields the `NoSource` error and
a provided stream starts recording with an empty buffer. -/
theorem c7_no_source_guard_witness :
    ((startMgr mgrInit none none).2 = some StartErr.noStream) ∧
    ((startMgr mgrInit (some streamA) none).2 = none ∧
      (startMgr mgrInit (some streamA) none).1.recorder =
        some ⟨RState.recording, streamA⟩ ∧
      (startMgr mgrInit (some streamA) none).1.chunks = []) := by
  have h1 := c7_no_source_guard mgrInit none none
  have h2 := c7_no_source_guard mgrInit (some streamA) none
  exact ⟨h1.1.mpr rfl, h2.2 streamA rfl rfl⟩

lemma setMimeType_default_or_supported (supported : String → Bool) (cur t : String)
    (h : cur = DEFAULT_MIME ∨ supported cur = true) :
    setMimeType supported cur t = DEFAULT_MIME ∨
      supported (setMimeType supported cur t) = true := by
  unfold setMimeType
  by_cases hs : supported t
  · rw [if_pos hs]; exact Or.inr hs
  · rw [if_neg hs]; exact h

lemma applyMime_aux (supported : String → Bool) :
    ∀ (ts : List String) (cur : String), (cur = DEFAULT_MIME ∨ supported cur = true) →
      (ts.foldl (setMimeType supported) cur = DEFAULT_MIME ∨
        supported (ts.foldl (setMimeType supported) cur) = true) := by
  intro ts
  induction ts with
  | nil => intro cur h; simpa using h
  | cons t ts ih =>
      intro cur h
      simp only [List.foldl_cons]
      apply ih
      unfold setMimeType
      by_cases hs : supported t
      · rw [if_pos hs]; exact Or.inr hs
      · rw [if_neg hs]; exact h

/-- C10: `setMimeType` never fails and is a guarded update — a supported type
is adopted verbatim and an unsupported one leaves the configured type
unchanged (only a warning is logged); consequently, after the constructor and
any sequence of `setMimeType` calls, the configured MIME type is always either
the initial default `video/webm` or a type the platform reports supported. -/
theorem c10_set_mime_guarded (supported : String → Bool) :
    (∀ cur t, supported t = true → setMimeType supported cur t = t) ∧
    (∀ cur t, supported t = false → setMimeType supported cur t = cur) ∧
    (∀ ts, applyMimeTypes supported ts = DEFAULT_MIME ∨
      supported (applyMimeTypes supported ts) = true) ∧
    (∀ optMime audioOnly, mgrConstructorMime supported optMime audioOnly = DEFAULT_MIME ∨
      supported (mgrConstructorMime supported optMime audioOnly) = true) := by
  refine ⟨?_, ?_, ?_, ?_⟩
  · intro cur t h; simp [setMimeType, h]
  · intro cur t h; simp [setMimeType, h]
  · intro ts
    exact applyMime_aux supported ts DEFAULT_MIME (Or.inl rfl)
  · intro optMime audioOnly
    have hm1 : (match optMime with
        | some t => setMimeType supported DEFAULT_MIME t
        | none => DEFAULT_MIME) = DEFAULT_MIME ∨
        supported (match optMime with
          | some t => setMimeType supported DEFAULT_MIME t
          | none => DEFAULT_MIME) = true := by
      cases optMime with
      | none => exact Or.inl rfl
      | some t =>
          exact setMimeType_default_or_supported supported DEFAULT_MIME t (Or.inl rfl)
    unfold mgrConstructorMime
    cases audioOnly with
    | false => simpa using hm1
    | true =>
        exact setMimeType_default_or_supported supported _ "audio/webm" hm1

/-- Witness for C10: with a platform supporting exactly `audio/webm`, setting a
supported type adopts it, an unsupported one is ignored, and a call sequence
ends on the default or a supported type. -/
theorem c10_set_mime_guarded_witness :
    setMimeType (fun t => t == "audio/webm") "video/webm" "audio/webm" = "audio/webm" ∧
    setMimeType (fun t => t == "audio/webm") "video/webm" "nope" = "video/webm" ∧
    (applyMimeTypes (fun t => t == "audio/webm") ["nope", "audio/webm"] = DEFAULT_MIME ∨
      (fun t : String => t == "audio/webm")
        (applyMimeTypes (fun t => t == "audio/webm") ["nope", "audio/webm"]) = true) := by
  have h := c10_set_mime_guarded (fun t => t == "audio/webm")
  exact ⟨h.1 "video/webm" "audio/webm" (by decide),
    h.2.1 "video/webm" "nope" (by decide), h.2.2.1 ["nope", "audio/webm"]⟩

end Recastra
